/-
Verification of the bouquet product-catalog backend (Go) against its
natural-language specification.

The Go sources are shallowly embedded:

* `internal/models/product.go`        → `Product`, `ProductVariant`
* `internal/services/product_service.go` → `ProductService.Create`,
  `ProductService.Update`, `ProductService.Delete`, `ProductService.GetByID`,
  `ProductService.GetAll`, `ProductService.Search`, `validateProduct`
* `internal/repositories` product repository (`FindAll`, `FindByID`,
  `FindByCode`, `Search`, row/variant writes) → `FindAll`, `findByID`,
  `findByCode`, `repoSearch`, and the database-state transformers
* `internal/services/category_service.go` / `category_repo.go`
  → `CategoryService.Delete`, `countProducts`

External collaborators (the relational store and the Cloudinary media store)
are modelled by an `Env` of call outcomes plus an explicit database state
(`List Product`), and every external call the service issues is recorded in
order in a trace of `Event`s.  Go `float64` prices are embedded as `ℚ`;
Go `len` on strings (a byte count) is `String.utf8ByteSize`; fallible Go
calls return `Except`.
-/
import Mathlib

/-- Embeds `models.ProductVariant` (internal/models/product.go). -/
structure ProductVariant where
  id : Int
  productID : Int
  color : String
  photoURL : String
  photoID : String
  priceAdjustment : ℚ
  isSale : Bool
deriving DecidableEq

/-- Embeds `models.Product` (internal/models/product.go); the owned variant
rows are carried inside the aggregate. -/
structure Product where
  id : Int
  code : String
  title : String
  description : String
  mainPhotoURL : String
  mainPhotoID : String
  categoryID : Option Int
  basePrice : ℚ
  isSold : Bool
  createdAt : Int
  variants : List ProductVariant
deriving DecidableEq

/-- One observable external call issued by a service operation, in program
order: relational reads/writes, transaction boundaries, and media-store
uploads/deletions. -/
inductive Event where
  | findByID (id : Int)
  | findByCode (code : String)
  | searchQuery (q : String)
  | upload (filename : String)
  | deleteImage (photoID : String)
  | insertProduct (code : String)
  | updateProduct (id : Int)
  | deleteProduct (id : Int)
  | deleteVariants (productID : Int)
  | insertVariants (productID : Int)
  | txBegin
  | txCommit
deriving DecidableEq

/-- Outcomes of the fallible external calls a single service invocation can
make.  `mainUpload = none` means the Cloudinary upload fails; the boolean
flags decide whether each relational call succeeds. -/
structure Env where
  beginOk : Bool
  commitOk : Bool
  createOk : Bool
  updateOk : Bool
  deleteOk : Bool
  deleteVariantsOk : Bool
  createVariantsOk : Bool
  mainUpload : Option (String × String)
  nextID : Int
deriving DecidableEq

deriving instance DecidableEq for Except

/-- Result of a write operation: the Go error value, the ordered trace of
external calls, and the relational state afterwards. -/
structure OpResult where
  res : Except String Unit
  trace : List Event
  db : List Product
deriving DecidableEq

def isErr {α : Type} : Except String α → Bool
  | .error _ => true
  | .ok _ => false

/-- `ProductRepository.FindByID` (query by primary key). -/
def findByID (db : List Product) (id : Int) : Option Product :=
  db.find? (fun p => p.id = id)

/-- `ProductRepository.FindByCode` (query by unique business code). -/
def findByCode (db : List Product) (code : String) : Option Product :=
  db.find? (fun p => p.code = code)

/-- `ProductService.validateProduct` (product_service.go lines 371-392).
Go `len` counts bytes; `0.01` and `99999999.99` are the Go literals. -/
def validateProduct (p : Product) : Option String :=
  if p.title = "" then some "product title is required"
  else if p.title.utf8ByteSize < 5 then some "product title must be at least 5 characters"
  else if p.title.utf8ByteSize > 200 then some "product title must not exceed 200 characters"
  else if p.basePrice < mkRat 1 100 then some "base price must be at least 0.01"
  else if p.basePrice > mkRat 9999999999 100 then some "base price must not exceed 99,999,999.99"
  else none

/-- The compensating `DeleteImage` call guarded by `photoID != ""`
(product_service.go, Create error paths). -/
def photoComp (photoID : String) : List Event :=
  if photoID = "" then [] else [Event.deleteImage photoID]

/-- The compensating `DeleteImage` of a freshly uploaded main photo, guarded
by `newPhoto != nil && product.MainPhotoID != ""` (Update error paths). -/
def newPhotoComp (hasNew : Bool) (p1 : Product) : List Event :=
  if hasNew then (if p1.mainPhotoID = "" then [] else [Event.deleteImage p1.mainPhotoID]) else []

/-- The rollback loop over the submitted variants' photo ids
(product_service.go lines 280-284 and 312-316). -/
def variantPhotoDeletes (vs : List ProductVariant) : List Event :=
  vs.filterMap (fun v => if v.photoID = "" then none else some (Event.deleteImage v.photoID))

/-- The photo ids of old variant rows that Update deletes from Cloudinary:
an old id is orphaned unless it reappears among the submitted variants'
photo ids (product_service.go lines 237-260). -/
def updateOrphanIDs (existingVs newVs : List ProductVariant) : List String :=
  existingVs.filterMap (fun ov =>
    if ov.photoID ≠ "" ∧
        ov.photoID ∉ newVs.filterMap (fun v => if v.photoID = "" then none else some v.photoID)
    then some ov.photoID else none)

/-- `ProductRepository.Create`: the product row insert, `RETURNING id`
(the variant rows are attached only when the transaction commits). -/
def repoInsertRow (db : List Product) (p : Product) (newID : Int) : List Product :=
  db ++ [{ p with id := newID, variants := [] }]

/-- `ProductRepository.Update`: updates the product columns of the row with
the given id; keeps the row's variant rows and creation time. -/
def repoUpdateRow (db : List Product) (id : Int) (p1 : Product) : List Product :=
  db.map (fun q => if q.id = id then
    { p1 with id := id, variants := q.variants, createdAt := q.createdAt } else q)

/-- Variant replace step as seen after commit: the variant rows of the
product `id` become `vs`. -/
def setVariantsAt (db : List Product) (id : Int) (vs : List ProductVariant) : List Product :=
  db.map (fun q => if q.id = id then { q with variants := vs } else q)

/-- The variant rows currently stored for product `id`. -/
def variantsAt (db : List Product) (id : Int) : List ProductVariant :=
  match findByID db id with
  | some p => p.variants
  | none => []

/-- Continuation of `ProductService.Create` after the main-photo upload
(product_service.go lines 110-156): insert the row, validate variant colors,
insert variant rows, commit, compensating on each failure. -/
def createInsertPhase (env : Env) (db : List Product) (p : Product) (photoID : String)
    (t : List Event) : OpResult :=
  if env.createOk = false then
    ⟨.error "failed to create product", t ++ [Event.insertProduct p.code] ++ photoComp photoID, db⟩
  else
    if p.variants = [] then
      if env.commitOk = false then
        ⟨.error "failed to commit transaction",
          t ++ [Event.insertProduct p.code, Event.txCommit] ++ photoComp photoID,
          repoInsertRow db p env.nextID⟩
      else
        ⟨.ok (), t ++ [Event.insertProduct p.code, Event.txCommit], repoInsertRow db p env.nextID⟩
    else
      if p.variants.any (fun v => v.color = "") then
        ⟨.error "variant color is required",
          t ++ [Event.insertProduct p.code] ++ photoComp photoID ++ [Event.deleteProduct env.nextID],
          db⟩
      else
        if env.createVariantsOk = false then
          ⟨.error "failed to create variants",
            t ++ [Event.insertProduct p.code, Event.insertVariants env.nextID] ++
              photoComp photoID ++ [Event.deleteProduct env.nextID],
            db⟩
        else
          if env.commitOk = false then
            ⟨.error "failed to commit transaction",
              t ++ [Event.insertProduct p.code, Event.insertVariants env.nextID, Event.txCommit] ++
                photoComp photoID,
              repoInsertRow db p env.nextID⟩
          else
            ⟨.ok (),
              t ++ [Event.insertProduct p.code, Event.insertVariants env.nextID, Event.txCommit],
              (repoInsertRow db p env.nextID).map (fun q =>
                if q.id = env.nextID then { q with variants := p.variants } else q)⟩

/-- `ProductService.Create` (product_service.go lines 77-157): validate,
check code uniqueness, begin the transaction, upload the main photo, then
`createInsertPhase`. -/
def ProductService.Create (env : Env) (db : List Product) (product : Product)
    (mainPhoto : Option String) : OpResult :=
  match validateProduct product with
  | some msg => ⟨.error msg, [], db⟩
  | none =>
    match findByCode db product.code with
    | some _ =>
      ⟨.error "product with this code already exists", [Event.findByCode product.code], db⟩
    | none =>
      if env.beginOk = false then
        ⟨.error "failed to start transaction",
          [Event.findByCode product.code, Event.txBegin], db⟩
      else
        match mainPhoto with
        | none =>
          createInsertPhase env db product ""
            [Event.findByCode product.code, Event.txBegin]
        | some fn =>
          match env.mainUpload with
          | none =>
            ⟨.error "failed to upload photo to Cloudinary",
              [Event.findByCode product.code, Event.txBegin, Event.upload fn], db⟩
          | some (url, pid) =>
            if url = "" ∨ pid = "" then
              ⟨.error "Cloudinary upload returned empty URL or ID",
                [Event.findByCode product.code, Event.txBegin, Event.upload fn], db⟩
            else
              createInsertPhase env db
                { product with mainPhotoURL := url, mainPhotoID := pid } pid
                [Event.findByCode product.code, Event.txBegin, Event.upload fn]

/-- Variant replacement step of `ProductService.Update`
(product_service.go lines 229-318): delete old variant rows, delete the old
variant photos that are not preserved, validate colors, insert the new
variant rows, commit.  When no variants are submitted, all old variant rows
and photos are removed. -/
def updateVariantsPhase (env : Env) (db1 : List Product) (id : Int)
    (existingVs : List ProductVariant) (p1 : Product) (comp : List Event)
    (t : List Event) : OpResult :=
  if p1.variants = [] then
    if env.deleteVariantsOk = false then
      ⟨.error "failed to delete variants", t ++ [Event.deleteVariants id], db1⟩
    else
      if env.commitOk = false then
        ⟨.error "failed to commit transaction",
          t ++ [Event.deleteVariants id] ++ variantPhotoDeletes existingVs ++
            [Event.txCommit] ++ comp,
          db1⟩
      else
        ⟨.ok (),
          t ++ [Event.deleteVariants id] ++ variantPhotoDeletes existingVs ++ [Event.txCommit],
          setVariantsAt db1 id []⟩
  else
    if env.deleteVariantsOk = false then
      ⟨.error "failed to delete old variants", t ++ [Event.deleteVariants id] ++ comp, db1⟩
    else
      if p1.variants.any (fun v => v.color = "") then
        ⟨.error "variant color is required",
          t ++ [Event.deleteVariants id] ++
            (updateOrphanIDs existingVs p1.variants).map Event.deleteImage ++ comp,
          db1⟩
      else
        if env.createVariantsOk = false then
          ⟨.error "failed to create variants",
            t ++ [Event.deleteVariants id] ++
              (updateOrphanIDs existingVs p1.variants).map Event.deleteImage ++
              [Event.insertVariants id] ++ comp ++ variantPhotoDeletes p1.variants,
            db1⟩
        else
          if env.commitOk = false then
            ⟨.error "failed to commit transaction",
              t ++ [Event.deleteVariants id] ++
                (updateOrphanIDs existingVs p1.variants).map Event.deleteImage ++
                [Event.insertVariants id, Event.txCommit] ++ comp ++
                variantPhotoDeletes p1.variants,
              db1⟩
          else
            ⟨.ok (),
              t ++ [Event.deleteVariants id] ++
                (updateOrphanIDs existingVs p1.variants).map Event.deleteImage ++
                [Event.insertVariants id, Event.txCommit],
              setVariantsAt db1 id p1.variants⟩

/-- Transaction phase of `ProductService.Update` (lines 208-227): begin,
update the product row (committed outside the transaction, as the repository
uses the raw connection), then `updateVariantsPhase`. -/
def updateTxPhase (env : Env) (db : List Product) (id : Int) (existing p1 : Product)
    (hasNew : Bool) (t : List Event) : OpResult :=
  if env.beginOk = false then
    ⟨.error "failed to start transaction", t ++ [Event.txBegin] ++ newPhotoComp hasNew p1, db⟩
  else
    if env.updateOk = false then
      ⟨.error "failed to update product",
        t ++ [Event.txBegin, Event.updateProduct id] ++ newPhotoComp hasNew p1, db⟩
    else
      updateVariantsPhase env (repoUpdateRow db id p1) id existing.variants p1
        (newPhotoComp hasNew p1) (t ++ [Event.txBegin, Event.updateProduct id])

/-- Main-photo phase of `ProductService.Update` (lines 187-206): upload the
replacement when new bytes are present (best-effort deleting the old main
photo), otherwise carry the existing photo fields forward. -/
def updatePhotoPhase (env : Env) (db : List Product) (id : Int) (existing product : Product)
    (newPhoto : Option String) (t : List Event) : OpResult :=
  match newPhoto with
  | none =>
    updateTxPhase env db id existing
      { product with mainPhotoURL := existing.mainPhotoURL, mainPhotoID := existing.mainPhotoID }
      false t
  | some fn =>
    match env.mainUpload with
    | none => ⟨.error "failed to upload photo", t ++ [Event.upload fn], db⟩
    | some (url, pid) =>
      updateTxPhase env db id existing
        { product with mainPhotoURL := url, mainPhotoID := pid } true
        (t ++ [Event.upload fn] ++
          (if existing.mainPhotoID = "" then [] else [Event.deleteImage existing.mainPhotoID]))

/-- `ProductService.Update` (product_service.go lines 160-321). -/
def ProductService.Update (env : Env) (db : List Product) (id : Int) (product : Product)
    (newPhoto : Option String) : OpResult :=
  if id ≤ 0 then ⟨.error "invalid product ID", [], db⟩
  else
    match findByID db id with
    | none => ⟨.error "product not found", [Event.findByID id], db⟩
    | some existing =>
      match validateProduct product with
      | some msg => ⟨.error msg, [Event.findByID id], db⟩
      | none =>
        if product.code ≠ existing.code then
          match findByCode db product.code with
          | some _ =>
            ⟨.error "product with this code already exists",
              [Event.findByID id, Event.findByCode product.code], db⟩
          | none =>
            updatePhotoPhase env db id existing { product with id := id } newPhoto
              [Event.findByID id, Event.findByCode product.code]
        else
          updatePhotoPhase env db id existing { product with id := id } newPhoto
            [Event.findByID id]

/-- `ProductService.Delete` (product_service.go lines 324-354). -/
def ProductService.Delete (env : Env) (db : List Product) (id : Int) : OpResult :=
  if id ≤ 0 then ⟨.error "invalid product ID", [], db⟩
  else
    match findByID db id with
    | none => ⟨.error "product not found", [Event.findByID id], db⟩
    | some product =>
      if env.deleteOk = false then
        ⟨.error "failed to delete product", [Event.findByID id, Event.deleteProduct id], db⟩
      else
        ⟨.ok (),
          [Event.findByID id, Event.deleteProduct id] ++ photoComp product.mainPhotoID ++
            variantPhotoDeletes product.variants,
          db.filter (fun q => ¬ q.id = id)⟩

/-- `ProductService.GetByID` (product_service.go lines 63-74). -/
def ProductService.GetByID (db : List Product) (id : Int) :
    Except String Product × List Event :=
  if id ≤ 0 then (.error "invalid product ID", [])
  else
    match findByID db id with
    | none => (.error "failed to fetch product", [Event.findByID id])
    | some p => (.ok p, [Event.findByID id])

/-- Case-insensitive substring containment over the characters, the meaning
of SQL `x ILIKE '%q%'`. -/
def charsContain : List Char → List Char → Bool
  | _, [] => true
  | [], _ :: _ => false
  | c :: cs, pat =>
    (pat.isPrefixOf (c :: cs)) || charsContain cs pat

def containsCI (s pat : String) : Bool :=
  charsContain (s.data.map Char.toLower) (pat.data.map Char.toLower)

/-- `ProductRepository.Search`: title/code ILIKE match, title ascending,
LIMIT 50. -/
def repoSearch (db : List Product) (q : String) : List Product :=
  ((db.filter (fun p => containsCI p.title q || containsCI p.code q)).mergeSort
    (fun a b => decide (a.title ≤ b.title))).take 50

/-- `ProductService.Search` (product_service.go lines 357-368): the empty
query short-circuits to an empty slice with no repository access. -/
def ProductService.Search (db : List Product) (query : String) :
    Except String (List Product) × List Event :=
  if query = "" then (.ok [], [])
  else (.ok (repoSearch db query), [Event.searchQuery query])

/-- Embeds `repositories.ProductFilters` (product repository). -/
structure ProductFilters where
  categoryID : Option Int
  minPrice : Option ℚ
  maxPrice : Option ℚ
  isSale : Option Bool
  isSold : Option Bool
  searchQuery : String
  sortBy : String
  page : Int
  pageSize : Int
deriving DecidableEq

/-- Embeds `repositories.ProductListResult`. -/
structure ProductListResult where
  products : List Product
  total : Int
  page : Int
  pageSize : Int
  totalPages : Int
deriving DecidableEq

/-- The WHERE clause `FindAll` builds once and passes to both the COUNT query
and the page-fetch query (part_007 lines 46-101): optional category, price
range, variant `is_sale` EXISTS subquery, product `is_sold`, and ILIKE search
over title or code, all conjoined. -/
def matchesFilters (f : ProductFilters) (p : Product) : Bool :=
  (match f.categoryID with
   | some c => decide (p.categoryID = some c)
   | none => true) &&
  (match f.minPrice with
   | some m => decide (m ≤ p.basePrice)
   | none => true) &&
  (match f.maxPrice with
   | some m => decide (p.basePrice ≤ m)
   | none => true) &&
  (match f.isSale with
   | some b => p.variants.any (fun v => v.isSale == b)
   | none => true) &&
  (match f.isSold with
   | some b => p.isSold == b
   | none => true) &&
  (if f.searchQuery = "" then true
   else containsCI p.title f.searchQuery || containsCI p.code f.searchQuery)

/-- The ORDER BY comparator of `FindAll` (part_007 lines 103-114); anything
other than the three explicit sorts orders newest first. -/
def sortLE (sortBy : String) (a b : Product) : Bool :=
  if sortBy = "price_asc" then decide (a.basePrice ≤ b.basePrice)
  else if sortBy = "price_desc" then decide (b.basePrice ≤ a.basePrice)
  else if sortBy = "name_asc" then decide (a.title ≤ b.title)
  else decide (b.createdAt ≤ a.createdAt)

/-- `ProductRepository.FindAll` (part_007 lines 45-176): default the page and
page size, run the COUNT query and the LIMIT/OFFSET fetch over the same
predicate, and compute `TotalPages = (total + pageSize - 1) / pageSize`. -/
def FindAll (db : List Product) (f : ProductFilters) : ProductListResult :=
  { products :=
      (((db.filter (matchesFilters f)).mergeSort (sortLE f.sortBy)).drop
          ((((if f.page < 1 then 1 else f.page) - 1) *
            (if f.pageSize < 1 then 20 else f.pageSize)).toNat)).take
        ((if f.pageSize < 1 then 20 else f.pageSize).toNat)
    total := ((db.filter (matchesFilters f)).length : Int)
    page := if f.page < 1 then 1 else f.page
    pageSize := if f.pageSize < 1 then 20 else f.pageSize
    totalPages :=
      (((db.filter (matchesFilters f)).length +
          (if f.pageSize < 1 then 20 else f.pageSize).toNat - 1) /
        (if f.pageSize < 1 then 20 else f.pageSize).toNat : ℕ) }

/-- The sort keys `ProductService.GetAll` accepts (product_service.go lines
44-49). -/
def validSort (s : String) : Bool :=
  s = "newest" || s = "price_asc" || s = "price_desc" || s = "name_asc"

/-- The filter normalisation of `ProductService.GetAll` (product_service.go
lines 31-52): page defaults to 1, page size defaults to 20 and is capped at
100, unknown non-empty sort keys fall back to newest. -/
def GetAllFilters (f : ProductFilters) : ProductFilters :=
  { f with
    page := if f.page < 1 then 1 else f.page
    pageSize :=
      if (if f.pageSize < 1 then 20 else f.pageSize) > 100 then 100
      else (if f.pageSize < 1 then 20 else f.pageSize)
    sortBy := if f.sortBy ≠ "" ∧ validSort f.sortBy = false then "newest" else f.sortBy }

/-- `ProductService.GetAll` (product_service.go lines 31-60). -/
def ProductService.GetAll (db : List Product) (f : ProductFilters) : ProductListResult :=
  FindAll db (GetAllFilters f)

/-- One submitted variant entry of the admin product form: a color, the
price/sale fields, and optionally the (url, handle) of freshly uploaded
image bytes. -/
structure SubmittedVariant where
  color : String
  priceAdjustment : ℚ
  isSale : Bool
  newImage : Option (String × String)
deriving DecidableEq

/-- Lookup of an existing variant by its color key. -/
def findColor (vs : List ProductVariant) (c : String) : Option ProductVariant :=
  vs.find? (fun v => v.color = c)

/-- Modelled from the spec: the Variant Reconciler (spec section 4.2) lives in
the admin product form handler, which is not among the provided source files;
only the service `Update` it feeds is.  Per the spec, a submitted entry with
an empty color is dropped; new image bytes yield the new (url, handle); with
no new bytes the (url, handle) of the existing variant with the same color is
copied forward; otherwise the image fields stay empty. -/
def reconcileOne (existingVs : List ProductVariant) (s : SubmittedVariant) :
    Option ProductVariant :=
  if s.color = "" then none
  else
    some { id := 0, productID := 0, color := s.color,
           photoURL :=
             (match s.newImage with
              | some ui => ui.1
              | none =>
                match findColor existingVs s.color with
                | some v => v.photoURL
                | none => ""),
           photoID :=
             (match s.newImage with
              | some ui => ui.2
              | none =>
                match findColor existingVs s.color with
                | some v => v.photoID
                | none => ""),
           priceAdjustment := s.priceAdjustment, isSale := s.isSale }

/-- Modelled from the spec: the full reconciled variant row set, in
submission order. -/
def reconcile (existingVs : List ProductVariant) (subs : List SubmittedVariant) :
    List ProductVariant :=
  subs.filterMap (reconcileOne existingVs)

/-- Embeds `models.Category`. -/
structure Category where
  id : Int
  name : String
  slug : String
deriving DecidableEq

/-- `CategoryRepository.CountProducts` (category_repo.go lines 140-154):
`SELECT COUNT(*) FROM products WHERE category_id = $1`. -/
def countProducts (db : List Product) (categoryID : Int) : Nat :=
  (db.filter (fun p => p.categoryID = some categoryID)).length

/-- `CategoryService.Delete` (category_service.go lines 155-187): reject a
non-positive id, a missing category, or a category still referenced by
products; otherwise delete the row. -/
def CategoryService.Delete (cats : List Category) (db : List Product) (id : Int) :
    Except String Unit × List Category :=
  if id ≤ 0 then (.error "invalid category ID", cats)
  else
    match cats.find? (fun c => c.id = id) with
    | none => (.error "category not found", cats)
    | some _ =>
      if countProducts db id > 0 then
        (.error "cannot delete category with products", cats)
      else
        (.ok (), cats.filter (fun c => ¬ c.id = id))

/-- A valid sample product used by witnesses. -/
def sampleProduct : Product :=
  { id := 0, code := "BRK-001", title := "Kertas Bouquet Premium", description := "",
    mainPhotoURL := "", mainPhotoID := "", categoryID := none, basePrice := 50000,
    isSold := false, createdAt := 0, variants := [] }

/-- An environment where every external call succeeds. -/
def envAllOk : Env :=
  { beginOk := true, commitOk := true, createOk := true, updateOk := true,
    deleteOk := true, deleteVariantsOk := true, createVariantsOk := true,
    mainUpload := some ("http://img/new", "new-pid"), nextID := 2 }

/-- C9: `GetByID`, `Update`, and `Delete` reject a non-positive product id
immediately, with no repository or media-store call and an unchanged
database. -/
theorem nonpositiveID_rejected_without_effects (env : Env) (db : List Product) (id : Int)
    (product : Product) (newPhoto : Option String) (h : id ≤ 0) :
    ProductService.GetByID db id = (Except.error "invalid product ID", []) ∧
    ProductService.Update env db id product newPhoto =
      ⟨Except.error "invalid product ID", [], db⟩ ∧
    ProductService.Delete env db id = ⟨Except.error "invalid product ID", [], db⟩ := by
  refine ⟨?_, ?_, ?_⟩ <;>
    simp [ProductService.GetByID, ProductService.Update, ProductService.Delete, if_pos h]

theorem nonpositiveID_rejected_without_effects_witness :
    ProductService.GetByID [] 0 = (Except.error "invalid product ID", []) ∧
    ProductService.Update envAllOk [] 0 sampleProduct none =
      ⟨Except.error "invalid product ID", [], []⟩ ∧
    ProductService.Delete envAllOk [] 0 = ⟨Except.error "invalid product ID", [], []⟩ :=
  nonpositiveID_rejected_without_effects envAllOk [] 0 sampleProduct none (by decide)

/-- C10: `Search` on the empty query returns the empty product list and
issues no store access at all. -/
theorem search_empty_query_no_store_access (db : List Product) :
    ProductService.Search db "" = (Except.ok [], []) := by
  simp [ProductService.Search]

/-- C7: the page-size normalisation of the public `GetAll`: the effective
page size is within 1..100, sizes above 100 clamp to 100, non-positive or
missing sizes reset to the default 20, and pages below 1 reset to 1. -/
theorem getAll_effective_pagination_bounds (f : ProductFilters) :
    1 ≤ (GetAllFilters f).pageSize ∧ (GetAllFilters f).pageSize ≤ 100 ∧
    (100 < f.pageSize → (GetAllFilters f).pageSize = 100) ∧
    (f.pageSize < 1 → (GetAllFilters f).pageSize = 20) ∧
    (f.page < 1 → (GetAllFilters f).page = 1) ∧
    1 ≤ (GetAllFilters f).page := by
  refine ⟨?_, ?_, fun h => ?_, fun h => ?_, fun h => ?_, ?_⟩ <;>
    (dsimp only [GetAllFilters]; split_ifs <;> omega)

/-- A sample filter specification used by witnesses. -/
def sampleFiltersA : ProductFilters :=
  { categoryID := none, minPrice := none, maxPrice := none, isSale := none,
    isSold := none, searchQuery := "", sortBy := "", page := 1, pageSize := 20 }

theorem getAll_effective_pagination_bounds_witness :
    (GetAllFilters { sampleFiltersA with pageSize := 150, page := 0 }).pageSize = 100 ∧
    (GetAllFilters { sampleFiltersA with pageSize := 150, page := 0 }).page = 1 :=
  ⟨(getAll_effective_pagination_bounds _).2.2.1 (by decide),
   (getAll_effective_pagination_bounds _).2.2.2.2.1 (by decide)⟩

/-- C8: deleting a category that is still referenced by at least one product
fails and leaves the category rows unchanged; with zero references the
deletion proceeds. -/
theorem categoryDelete_blocked_by_references (cats : List Category) (db : List Product)
    (id : Int) (c : Category) (hid : 0 < id)
    (hfound : cats.find? (fun c => c.id = id) = some c) :
    (0 < countProducts db id →
      (CategoryService.Delete cats db id).1 =
        Except.error "cannot delete category with products" ∧
      (CategoryService.Delete cats db id).2 = cats) ∧
    (countProducts db id = 0 →
      (CategoryService.Delete cats db id).1 = Except.ok () ∧
      (CategoryService.Delete cats db id).2 = cats.filter (fun c => ¬ c.id = id)) := by
  unfold CategoryService.Delete
  rw [if_neg (by omega), hfound]
  constructor
  · intro h
    rw [if_pos h]
    exact ⟨rfl, rfl⟩
  · intro h
    rw [if_neg (by omega)]
    exact ⟨rfl, rfl⟩

theorem categoryDelete_blocked_by_references_witness :
    ((CategoryService.Delete [⟨1, "Roses", "roses"⟩] [] 1).1 = Except.ok () ∧
      (CategoryService.Delete [⟨1, "Roses", "roses"⟩] [] 1).2 =
        ([⟨1, "Roses", "roses"⟩] : List Category).filter (fun c => ¬ c.id = 1)) :=
  (categoryDelete_blocked_by_references [⟨1, "Roses", "roses"⟩] [] 1 ⟨1, "Roses", "roses"⟩
    (by decide) (by decide)).2 (by decide)

/-- C6: with the sale-flag filter set to `b` (and no other filter), a product
matches exactly when at least one of its variants has `is_sale = b`; a
product with zero variants matches neither sale-flag value. -/
theorem saleFilter_matches_iff_variant_exists (f : ProductFilters) (p : Product) (b : Bool)
    (hsale : f.isSale = some b) (hcat : f.categoryID = none) (hmin : f.minPrice = none)
    (hmax : f.maxPrice = none) (hsold : f.isSold = none) (hq : f.searchQuery = "") :
    (matchesFilters f p = true ↔ ∃ v ∈ p.variants, v.isSale = b) ∧
    (p.variants = [] → matchesFilters f p = false) := by
  constructor
  · simp [matchesFilters, hsale, hcat, hmin, hmax, hsold, hq, List.any_eq_true]
  · intro hv
    simp [matchesFilters, hsale, hv]

theorem saleFilter_matches_iff_variant_exists_witness :
    matchesFilters { sampleFiltersA with isSale := some true }
        { sampleProduct with variants := [⟨1, 1, "Gold", "", "", 0, true⟩] } = true ∧
    matchesFilters { sampleFiltersA with isSale := some true } sampleProduct = false :=
  ⟨(saleFilter_matches_iff_variant_exists _ _ true rfl rfl rfl rfl rfl rfl).1.mpr
      ⟨⟨1, 1, "Gold", "", "", 0, true⟩, by decide, rfl⟩,
   (saleFilter_matches_iff_variant_exists _ sampleProduct true rfl rfl rfl rfl rfl rfl).2 rfl⟩

/-- C3 counterexample: a `Create` whose only validation defect is an empty
submitted variant color is rejected, but only after the main-photo upload
and the product row insert have been issued — not before any external side
effect, as the claim states. -/
theorem emptyVariantColor_checked_after_side_effects :
    isErr (ProductService.Create envAllOk []
        { sampleProduct with variants := [⟨0, 0, "", "", "", 0, false⟩] }
        (some "main.jpg")).res = true ∧
    Event.upload "main.jpg" ∈
      (ProductService.Create envAllOk []
        { sampleProduct with variants := [⟨0, 0, "", "", "", 0, false⟩] }
        (some "main.jpg")).trace ∧
    Event.insertProduct "BRK-001" ∈
      (ProductService.Create envAllOk []
        { sampleProduct with variants := [⟨0, 0, "", "", "", 0, false⟩] }
        (some "main.jpg")).trace := by
  decide

/-- C3 (amended): a title or base-price validation failure is returned by
`Create` before any external call at all, and by `Update` after at most the
product lookup — in both cases with no media-store upload or deletion and no
relational write; the empty-variant-color check is not part of this early
validation. -/
theorem title_price_validation_before_any_effect (env : Env) (db : List Product)
    (product : Product) (mainPhoto newPhoto : Option String) (id : Int) (msg : String)
    (hbad : validateProduct product = some msg) :
    ProductService.Create env db product mainPhoto = ⟨Except.error msg, [], db⟩ ∧
    isErr (ProductService.Update env db id product newPhoto).res = true ∧
    (ProductService.Update env db id product newPhoto).db = db ∧
    ∀ ev ∈ (ProductService.Update env db id product newPhoto).trace,
      ev = Event.findByID id := by
  refine ⟨?_, ?_⟩
  · simp [ProductService.Create, hbad]
  · by_cases hid : id ≤ 0
    · simp [ProductService.Update, hid, isErr]
    · cases hfind : findByID db id with
      | none => simp [ProductService.Update, hid, hfind, isErr]
      | some existing => simp [ProductService.Update, hid, hfind, hbad, isErr]

theorem title_price_validation_before_any_effect_witness :
    ProductService.Create envAllOk [] { sampleProduct with title := "ABCD" } none =
      ⟨Except.error "product title must be at least 5 characters", [], []⟩ ∧
    isErr (ProductService.Update envAllOk [] 1 { sampleProduct with title := "ABCD" } none).res
      = true :=
  ⟨(title_price_validation_before_any_effect envAllOk [] { sampleProduct with title := "ABCD" }
      none none 1 "product title must be at least 5 characters" (by decide)).1,
   (title_price_validation_before_any_effect envAllOk [] { sampleProduct with title := "ABCD" }
      none none 1 "product title must be at least 5 characters" (by decide)).2.1⟩

/-- C4: when the main-image upload fails, `Create` returns an error having
issued no relational write, and the database still holds zero product rows
with the submitted business code. -/
theorem create_upload_failure_leaves_no_row (env : Env) (db : List Product)
    (product : Product) (fn : String)
    (hval : validateProduct product = none)
    (hcode : findByCode db product.code = none)
    (hbegin : env.beginOk = true)
    (hupload : env.mainUpload = none) :
    isErr (ProductService.Create env db product (some fn)).res = true ∧
    (ProductService.Create env db product (some fn)).db = db ∧
    ((ProductService.Create env db product (some fn)).db.filter
        (fun p => p.code = product.code)).length = 0 ∧
    ∀ ev ∈ (ProductService.Create env db product (some fn)).trace,
      ev = Event.findByCode product.code ∨ ev = Event.txBegin ∨ ev = Event.upload fn := by
  have hres : ProductService.Create env db product (some fn) =
      ⟨.error "failed to upload photo to Cloudinary",
        [Event.findByCode product.code, Event.txBegin, Event.upload fn], db⟩ := by
    simp [ProductService.Create, hval, hcode, hbegin, hupload]
  rw [hres]
  refine ⟨rfl, rfl, ?_, ?_⟩
  · have hnone : ∀ x ∈ db, ¬ (x.code = product.code) := by
      intro x hx
      have := List.find?_eq_none.mp hcode x hx
      simpa using this
    have : db.filter (fun p => p.code = product.code) = [] := by
      rw [List.filter_eq_nil_iff]
      intro a ha
      simpa using hnone a ha
    simp [this]
  · intro ev hev
    simpa using hev

theorem create_upload_failure_leaves_no_row_witness :
    isErr (ProductService.Create { envAllOk with mainUpload := none } [] sampleProduct
        (some "main.jpg")).res = true ∧
    (ProductService.Create { envAllOk with mainUpload := none } [] sampleProduct
        (some "main.jpg")).db = [] ∧
    ((ProductService.Create { envAllOk with mainUpload := none } [] sampleProduct
        (some "main.jpg")).db.filter (fun p => p.code = sampleProduct.code)).length = 0 :=
  ⟨(create_upload_failure_leaves_no_row _ [] sampleProduct "main.jpg"
      (by decide) (by decide) rfl rfl).1,
   (create_upload_failure_leaves_no_row _ [] sampleProduct "main.jpg"
      (by decide) (by decide) rfl rfl).2.1,
   (create_upload_failure_leaves_no_row _ [] sampleProduct "main.jpg"
      (by decide) (by decide) rfl rfl).2.2.1⟩

/-- Go's `(total + pageSize - 1) / pageSize` on non-negative ints is the
ceiling of the rational division. -/
lemma add_pred_div_eq_ceil (t s : ℕ) (hs : 0 < s) :
    (t + s - 1) / s = Nat.ceil ((t : ℚ) / (s : ℚ)) := by
  rcases Nat.eq_zero_or_pos t with ht | ht
  · subst ht
    have h1 : (s - 1) / s = 0 := Nat.div_eq_of_lt (by omega)
    simp [h1]
  · have hq := Nat.div_add_mod (t - 1) s
    have hr : (t - 1) % s < s := Nat.mod_lt _ hs
    have hcomm : (t - 1) / s * s = s * ((t - 1) / s) := Nat.mul_comm _ _
    have hdiv : (t + s - 1) / s = (t - 1) / s + 1 := by
      have h : t + s - 1 = (t - 1) + s := by omega
      rw [h, Nat.add_div_right _ hs]
    have hs' : (0 : ℚ) < (s : ℚ) := by exact_mod_cast hs
    rw [hdiv]
    symm
    have hne : (t - 1) / s + 1 ≠ 0 := Nat.succ_ne_zero _
    rw [Nat.ceil_eq_iff hne]
    refine ⟨?_, ?_⟩
    · simp only [Nat.add_sub_cancel]
      rw [lt_div_iff₀ hs']
      have hnat : ((t - 1) / s) * s < t := by omega
      exact_mod_cast hnat
    · rw [div_le_iff₀ hs']
      have hnat : t ≤ ((t - 1) / s + 1) * s := by
        have hexp : ((t - 1) / s + 1) * s = (t - 1) / s * s + s := by ring
        omega
      exact_mod_cast hnat

/-- C5: `FindAll` evaluates the count query and the page-fetch query over
the same predicate set — the total is the number of matching rows and every
returned row matches — and `TotalPages` is the ceiling of
`Total / PageSize`. -/
theorem findAll_same_predicates_and_ceil_pages (db : List Product) (f : ProductFilters) :
    (FindAll db f).total = ((db.filter (matchesFilters f)).length : Int) ∧
    (∀ p ∈ (FindAll db f).products, matchesFilters f p = true) ∧
    1 ≤ (FindAll db f).pageSize ∧
    (FindAll db f).totalPages =
      ((Nat.ceil (((db.filter (matchesFilters f)).length : ℚ) /
        (((FindAll db f).pageSize).toNat : ℚ)) : ℕ) : Int) := by
  refine ⟨rfl, ?_, ?_, ?_⟩
  · intro p hp
    have h1 := List.mem_of_mem_take hp
    have h2 := List.mem_of_mem_drop h1
    have h3 := List.mem_mergeSort.mp h2
    exact (List.mem_filter.mp h3).2
  · dsimp only [FindAll]
    split_ifs <;> omega
  · have hs : 0 < (if f.pageSize < 1 then 20 else f.pageSize).toNat := by
      split_ifs <;> omega
    dsimp only [FindAll]
    exact_mod_cast add_pred_div_eq_ceil (db.filter (matchesFilters f)).length _ hs

theorem findAll_same_predicates_and_ceil_pages_witness :
    (FindAll [sampleProduct] sampleFiltersA).total =
      (([sampleProduct].filter (matchesFilters sampleFiltersA)).length : Int) ∧
    (∀ p ∈ (FindAll [sampleProduct] sampleFiltersA).products,
      matchesFilters sampleFiltersA p = true) ∧
    1 ≤ (FindAll [sampleProduct] sampleFiltersA).pageSize ∧
    (FindAll [sampleProduct] sampleFiltersA).totalPages =
      ((Nat.ceil ((([sampleProduct].filter (matchesFilters sampleFiltersA)).length : ℚ) /
        (((FindAll [sampleProduct] sampleFiltersA).pageSize).toNat : ℚ)) : ℕ) : Int) :=
  findAll_same_predicates_and_ceil_pages [sampleProduct] sampleFiltersA

/-- A successful variant-replacement phase runs the full success path: the
old rows are deleted, the orphaned old photos are deleted, the new rows are
inserted and the transaction commits, in that order. -/
lemma updateVariantsPhase_ok (env : Env) (db1 : List Product) (id : Int)
    (existingVs : List ProductVariant) (p1 : Product) (comp t : List Event)
    (hvars : ¬ p1.variants = [])
    (h : (updateVariantsPhase env db1 id existingVs p1 comp t).res = .ok ()) :
    updateVariantsPhase env db1 id existingVs p1 comp t =
      ⟨.ok (),
        t ++ [Event.deleteVariants id] ++
          (updateOrphanIDs existingVs p1.variants).map Event.deleteImage ++
          [Event.insertVariants id, Event.txCommit],
        setVariantsAt db1 id p1.variants⟩ := by
  cases hd : env.deleteVariantsOk <;>
    cases hcol : p1.variants.any (fun v => v.color = "") <;>
      cases hcv : env.createVariantsOk <;>
        cases hcm : env.commitOk <;>
          simp_all [updateVariantsPhase]

/-- A successful transaction phase begins the transaction, updates the
product row and hands over to the variant phase. -/
lemma updateTxPhase_ok (env : Env) (db : List Product) (id : Int) (existing p1 : Product)
    (hasNew : Bool) (t : List Event)
    (h : (updateTxPhase env db id existing p1 hasNew t).res = .ok ()) :
    updateTxPhase env db id existing p1 hasNew t =
      updateVariantsPhase env (repoUpdateRow db id p1) id existing.variants p1
        (newPhotoComp hasNew p1) (t ++ [Event.txBegin, Event.updateProduct id]) := by
  cases hb : env.beginOk <;> cases hu : env.updateOk <;> simp_all [updateTxPhase]

/-- A successful photo phase hands over to the transaction phase with a
candidate product carrying the submitted variants unchanged. -/
lemma updatePhotoPhase_ok (env : Env) (db : List Product) (id : Int)
    (existing product : Product) (newPhoto : Option String) (t : List Event)
    (h : (updatePhotoPhase env db id existing product newPhoto t).res = .ok ()) :
    ∃ p1 hasNew t1,
      updatePhotoPhase env db id existing product newPhoto t =
        updateTxPhase env db id existing p1 hasNew t1 ∧
      p1.variants = product.variants := by
  cases newPhoto with
  | none => exact ⟨_, _, _, rfl, rfl⟩
  | some fn =>
    cases hm : env.mainUpload with
    | none => simp [updatePhotoPhase, hm] at h
    | some ui =>
      cases ui with
      | mk url pid =>
        refine ⟨{ product with mainPhotoURL := url, mainPhotoID := pid }, true,
          t ++ [Event.upload fn] ++
            (if existing.mainPhotoID = "" then [] else [Event.deleteImage existing.mainPhotoID]),
          ?_, rfl⟩
        simp [updatePhotoPhase, hm]

/-- A successful `Update` reaches the photo phase of the loaded aggregate. -/
lemma productUpdate_ok_toPhase (env : Env) (db : List Product) (id : Int)
    (product : Product) (newPhoto : Option String) (existing : Product)
    (h : (ProductService.Update env db id product newPhoto).res = .ok ())
    (hfind : findByID db id = some existing) :
    ∃ t0, ProductService.Update env db id product newPhoto =
      updatePhotoPhase env db id existing { product with id := id } newPhoto t0 := by
  by_cases hid : id ≤ 0
  · simp [ProductService.Update, hid] at h
  · unfold ProductService.Update at h ⊢
    simp only [if_neg hid, hfind] at h ⊢
    cases hv : validateProduct product with
    | some msg => simp only [hv] at h; simp at h
    | none =>
      simp only [hv] at h ⊢
      by_cases hc : product.code ≠ existing.code
      · simp only [if_pos hc] at h ⊢
        cases hcode : findByCode db product.code with
        | some q => simp only [hcode] at h; simp at h
        | none => simp only [hcode] at h ⊢; exact ⟨_, rfl⟩
      · simp only [if_neg hc] at h ⊢
        exact ⟨_, rfl⟩

/-- Shape of any successful `Update` with a nonempty submitted variant set:
the final state stores exactly the submitted variants at `id`, and the trace
ends with row deletion, the orphan photo deletions, row insertion, and the
commit, in that order. -/
lemma productUpdate_ok_shape (env : Env) (db : List Product) (id : Int)
    (product : Product) (newPhoto : Option String) (existing : Product)
    (h : (ProductService.Update env db id product newPhoto).res = .ok ())
    (hfind : findByID db id = some existing)
    (hvars : ¬ product.variants = []) :
    ∃ p1 t1,
      ProductService.Update env db id product newPhoto =
        ⟨.ok (),
          t1 ++ [Event.deleteVariants id] ++
            (updateOrphanIDs existing.variants product.variants).map Event.deleteImage ++
            [Event.insertVariants id, Event.txCommit],
          setVariantsAt (repoUpdateRow db id p1) id product.variants⟩ := by
  obtain ⟨t0, heq0⟩ := productUpdate_ok_toPhase env db id product newPhoto existing h hfind
  rw [heq0] at h
  obtain ⟨p1, hasNew, t1, heq1, hp1⟩ :=
    updatePhotoPhase_ok env db id existing { product with id := id } newPhoto t0 h
  rw [heq1] at h
  have heq2 := updateTxPhase_ok env db id existing p1 hasNew t1 h
  rw [heq2] at h
  have hvars1 : ¬ p1.variants = [] := by rw [hp1]; exact hvars
  have heq3 := updateVariantsPhase_ok env (repoUpdateRow db id p1) id existing.variants p1
    (newPhotoComp hasNew p1) (t1 ++ [Event.txBegin, Event.updateProduct id]) hvars1 h
  refine ⟨p1, t1 ++ [Event.txBegin, Event.updateProduct id], ?_⟩
  rw [heq0, heq1, heq2, heq3, hp1]

/-- After the row update and the committed variant replacement, the variant
rows stored at `id` are exactly the replacement set. -/
lemma variantsAt_after_update (db : List Product) (id : Int) (p1 : Product)
    (vs : List ProductVariant) (hex : ∃ q ∈ db, q.id = id) :
    variantsAt (setVariantsAt (repoUpdateRow db id p1) id vs) id = vs := by
  induction db with
  | nil => simp at hex
  | cons a l ih =>
    by_cases ha : a.id = id
    · simp [variantsAt, setVariantsAt, repoUpdateRow, findByID, ha]
    · obtain ⟨q, hq, hqid⟩ := hex
      rcases List.mem_cons.mp hq with rfl | hq'
      · exact absurd hqid ha
      · have hrec := ih ⟨q, hq', hqid⟩
        simpa [variantsAt, setVariantsAt, repoUpdateRow, findByID, ha] using hrec

/-- The reconciler, applied to a submitted entry with a nonempty color and
no new image bytes whose color matches an existing variant, yields the row
that carries the existing variant's image forward. -/
lemma reconcileOne_copies_forward (existingVs : List ProductVariant) (s : SubmittedVariant)
    (v : ProductVariant) (hc : ¬ s.color = "") (hnoimg : s.newImage = none)
    (hcolor : findColor existingVs s.color = some v) :
    reconcileOne existingVs s =
      some ⟨0, 0, s.color, v.photoURL, v.photoID, s.priceAdjustment, s.isSale⟩ := by
  simp [reconcileOne, hc, hnoimg, hcolor]

/-- C1: on a successful `Update` whose candidate variant set was produced by
the reconciler, a submitted color that matches an existing variant and
carries no new image bytes ends up stored with the prior variant's photo URL
and deletion handle unchanged, and that handle is not in the set of old
variant images deleted from the media store. -/
theorem update_resubmitted_color_preserves_image (env : Env) (db : List Product) (id : Int)
    (existing product : Product) (newPhoto : Option String)
    (subs : List SubmittedVariant) (s : SubmittedVariant) (v : ProductVariant)
    (hfind : findByID db id = some existing)
    (hsub : s ∈ subs) (hnoimg : s.newImage = none) (hc : ¬ s.color = "")
    (hcolor : findColor existing.variants s.color = some v)
    (hcand : product.variants = reconcile existing.variants subs)
    (hok : (ProductService.Update env db id product newPhoto).res = Except.ok ()) :
    (∃ v' ∈ variantsAt (ProductService.Update env db id product newPhoto).db id,
      v'.color = s.color ∧ v'.photoURL = v.photoURL ∧ v'.photoID = v.photoID) ∧
    v.photoID ∉ updateOrphanIDs existing.variants product.variants := by
  have hrec := reconcileOne_copies_forward existing.variants s v hc hnoimg hcolor
  have hmem : (⟨0, 0, s.color, v.photoURL, v.photoID, s.priceAdjustment, s.isSale⟩ :
      ProductVariant) ∈ product.variants := by
    rw [hcand]
    exact List.mem_filterMap.mpr ⟨s, hsub, hrec⟩
  have hvars : ¬ product.variants = [] := List.ne_nil_of_mem hmem
  obtain ⟨p1, t1, heq⟩ :=
    productUpdate_ok_shape env db id product newPhoto existing hok hfind hvars
  constructor
  · have hex : ∃ q ∈ db, q.id = id := by
      refine ⟨existing, List.mem_of_find?_eq_some hfind, ?_⟩
      have := List.find?_some hfind
      simpa using this
    rw [heq]
    rw [show (OpResult.mk (Except.ok ())
      (t1 ++ [Event.deleteVariants id] ++
        (updateOrphanIDs existing.variants product.variants).map Event.deleteImage ++
        [Event.insertVariants id, Event.txCommit])
      (setVariantsAt (repoUpdateRow db id p1) id product.variants)).db =
      setVariantsAt (repoUpdateRow db id p1) id product.variants from rfl]
    rw [variantsAt_after_update db id p1 product.variants hex]
    exact ⟨_, hmem, rfl, rfl, rfl⟩
  · intro habs
    obtain ⟨ov, hov, hcond⟩ := List.mem_filterMap.mp habs
    by_cases h1 : ov.photoID ≠ "" ∧
        ov.photoID ∉ product.variants.filterMap
          (fun v => if v.photoID = "" then none else some v.photoID)
    · rw [if_pos h1] at hcond
      have hovid : ov.photoID = v.photoID := by simpa using hcond
      have hne : ¬ v.photoID = "" := by
        intro hemp
        exact absurd (hovid.trans hemp) h1.1
      have hpres : v.photoID ∈ product.variants.filterMap
          (fun v => if v.photoID = "" then none else some v.photoID) :=
        List.mem_filterMap.mpr ⟨_, hmem, by simp [hne]⟩
      rw [hovid] at h1
      exact h1.2 hpres
    · rw [if_neg h1] at hcond
      cases hcond

/-- Every execution of the variant-replacement phase deletes the old variant
rows first, so the event is always in its trace. -/
lemma deleteVariants_mem_variantsPhase (env : Env) (db1 : List Product) (id : Int)
    (existingVs : List ProductVariant) (p1 : Product) (comp t : List Event) :
    Event.deleteVariants id ∈ (updateVariantsPhase env db1 id existingVs p1 comp t).trace := by
  unfold updateVariantsPhase
  split_ifs <;> simp

/-- A media deletion in the compensation list is the freshly uploaded main
photo. -/
lemma mem_newPhotoComp (hasNew : Bool) (p1 : Product) (pid : String)
    (h : Event.deleteImage pid ∈ newPhotoComp hasNew p1) :
    hasNew = true ∧ pid = p1.mainPhotoID := by
  unfold newPhotoComp at h
  cases hasNew
  · simp at h
  · rw [if_pos rfl] at h
    refine ⟨rfl, ?_⟩
    split_ifs at h with hm
    · simp at h
    · simpa using h

/-- If the transaction phase never reached the variant-row deletion, any
media deletion it issued is either from the prefix trace or the compensation
of the new main photo. -/
lemma updateTxPhase_deleteImage_sources (env : Env) (db : List Product) (id : Int)
    (existing p1 : Product) (hasNew : Bool) (t : List Event) (pid : String)
    (hnd : Event.deleteVariants id ∉ (updateTxPhase env db id existing p1 hasNew t).trace)
    (hmem : Event.deleteImage pid ∈ (updateTxPhase env db id existing p1 hasNew t).trace) :
    Event.deleteImage pid ∈ t ∨ (hasNew = true ∧ pid = p1.mainPhotoID) := by
  cases hb : env.beginOk
  · simp [updateTxPhase, hb] at hmem
    rcases hmem with h | h
    · exact Or.inl h
    · exact Or.inr (mem_newPhotoComp hasNew p1 pid h)
  · cases hu : env.updateOk
    · simp [updateTxPhase, hb, hu] at hmem
      rcases hmem with h | h
      · exact Or.inl h
      · exact Or.inr (mem_newPhotoComp hasNew p1 pid h)
    · exfalso
      apply hnd
      simp only [updateTxPhase, hb, hu]
      exact deleteVariants_mem_variantsPhase env (repoUpdateRow db id p1) id
        existing.variants p1 (newPhotoComp hasNew p1)
        (t ++ [Event.txBegin, Event.updateProduct id])

/-- If the photo phase never reached the variant-row deletion, any media
deletion it issued is from the prefix trace, the old main photo, or the
freshly uploaded main photo handle. -/
lemma updatePhotoPhase_deleteImage_sources (env : Env) (db : List Product) (id : Int)
    (existing product : Product) (newPhoto : Option String) (t : List Event) (pid : String)
    (hnd : Event.deleteVariants id ∉
      (updatePhotoPhase env db id existing product newPhoto t).trace)
    (hmem : Event.deleteImage pid ∈
      (updatePhotoPhase env db id existing product newPhoto t).trace) :
    Event.deleteImage pid ∈ t ∨ pid = existing.mainPhotoID ∨
      ∃ u, env.mainUpload = some (u, pid) := by
  cases newPhoto with
  | none =>
    have hsrc := updateTxPhase_deleteImage_sources env db id existing
      { product with mainPhotoURL := existing.mainPhotoURL, mainPhotoID := existing.mainPhotoID }
      false t pid hnd hmem
    rcases hsrc with h | h
    · exact Or.inl h
    · cases h.1
  | some fn =>
    cases hm : env.mainUpload with
    | none =>
      simp [updatePhotoPhase, hm] at hmem
      exact Or.inl hmem
    | some ui =>
      cases ui with
      | mk url upid =>
        rw [show updatePhotoPhase env db id existing product (some fn) t =
            updateTxPhase env db id existing
              { product with mainPhotoURL := url, mainPhotoID := upid } true
              (t ++ [Event.upload fn] ++
                (if existing.mainPhotoID = "" then []
                 else [Event.deleteImage existing.mainPhotoID]))
            from by simp [updatePhotoPhase, hm]] at hnd hmem
        have hsrc := updateTxPhase_deleteImage_sources env db id existing
          { product with mainPhotoURL := url, mainPhotoID := upid } true
          (t ++ [Event.upload fn] ++
            (if existing.mainPhotoID = "" then []
             else [Event.deleteImage existing.mainPhotoID])) pid hnd hmem
        rcases hsrc with h | h
        · rcases List.mem_append.mp h with h1 | h2
          · rcases List.mem_append.mp h1 with h3 | h4
            · exact Or.inl h3
            · simp at h4
          · split_ifs at h2 with hmain
            · simp at h2
            · have hpid : pid = existing.mainPhotoID := by simpa using h2
              exact Or.inr (Or.inl hpid)
        · refine Or.inr (Or.inr ⟨url, ?_⟩)
          have hpid : pid = upid := h.2
          rw [hpid]

/-- If an `Update` never reached the variant-row deletion step, any media
deletion it issued was the old main photo or the newly uploaded main photo —
never an old variant photo (whose handles are distinct from both). -/
lemma productUpdate_deleteImage_sources (env : Env) (db : List Product) (id : Int)
    (product : Product) (newPhoto : Option String) (existing : Product) (pid : String)
    (hfind : findByID db id = some existing)
    (hnd : Event.deleteVariants id ∉
      (ProductService.Update env db id product newPhoto).trace)
    (hmem : Event.deleteImage pid ∈
      (ProductService.Update env db id product newPhoto).trace) :
    pid = existing.mainPhotoID ∨ ∃ u, env.mainUpload = some (u, pid) := by
  by_cases hid : id ≤ 0
  · simp [ProductService.Update, hid] at hmem
  · unfold ProductService.Update at hnd hmem
    simp only [if_neg hid, hfind] at hnd hmem
    cases hv : validateProduct product with
    | some msg => simp only [hv] at hmem; simp at hmem
    | none =>
      simp only [hv] at hnd hmem
      by_cases hc : product.code ≠ existing.code
      · simp only [if_pos hc] at hnd hmem
        cases hcode : findByCode db product.code with
        | some q => simp only [hcode] at hmem; simp at hmem
        | none =>
          simp only [hcode] at hnd hmem
          have hsrc := updatePhotoPhase_deleteImage_sources env db id existing
            { product with id := id } newPhoto
            [Event.findByID id, Event.findByCode product.code] pid hnd hmem
          rcases hsrc with h | h
          · simp at h
          · exact h
      · simp only [if_neg hc] at hnd hmem
        have hsrc := updatePhotoPhase_deleteImage_sources env db id existing
          { product with id := id } newPhoto [Event.findByID id] pid hnd hmem
        rcases hsrc with h | h
        · simp at h
        · exact h

/-- An existing product whose single variant owns a photo, used by witnesses
and counterexamples. -/
def existingGold : Product :=
  { sampleProduct with
    id := 1,
    variants := [⟨10, 1, "Gold", "http://img/gold", "gold-pid", 0, false⟩] }

/-- A resubmission of the `Gold` color with no new image bytes. -/
def subsGold : List SubmittedVariant := [⟨"Gold", 0, true, none⟩]

/-- The candidate aggregate produced by the reconciler for `subsGold`. -/
def candidateGold : Product :=
  { sampleProduct with variants := reconcile existingGold.variants subsGold }

theorem update_resubmitted_color_preserves_image_witness :
    (∃ v' ∈ variantsAt (ProductService.Update envAllOk [existingGold] 1
        candidateGold none).db 1,
      v'.color = "Gold" ∧ v'.photoURL = "http://img/gold" ∧ v'.photoID = "gold-pid") ∧
    "gold-pid" ∉ updateOrphanIDs existingGold.variants candidateGold.variants :=
  update_resubmitted_color_preserves_image envAllOk [existingGold] 1 existingGold
    candidateGold none subsGold ⟨"Gold", 0, true, none⟩
    ⟨10, 1, "Gold", "http://img/gold", "gold-pid", 0, false⟩
    (by decide) (by decide) rfl (by decide) (by decide) rfl (by decide)

/-- C2 (amended): the orphaned old variant photos are deleted inside the
update flow after the old variant rows are deleted but before the commit
(on the success path the trace ends with row deletion, orphan deletions, row
insertion, commit); and on any `Update` that never reached the variant-row
deletion step, no old variant photo (distinct from the main-photo handles)
has been deleted. -/
theorem update_orphan_deletions_timing (env : Env) (db : List Product) (id : Int)
    (product : Product) (newPhoto : Option String) (existing : Product)
    (hfind : findByID db id = some existing) :
    ((ProductService.Update env db id product newPhoto).res = Except.ok () →
      ¬ product.variants = [] →
      ∃ t1, (ProductService.Update env db id product newPhoto).trace =
        t1 ++ [Event.deleteVariants id] ++
          (updateOrphanIDs existing.variants product.variants).map Event.deleteImage ++
          [Event.insertVariants id, Event.txCommit]) ∧
    (Event.deleteVariants id ∉ (ProductService.Update env db id product newPhoto).trace →
      ∀ ov ∈ existing.variants, ¬ ov.photoID = existing.mainPhotoID →
        (∀ u i, env.mainUpload = some (u, i) → ¬ ov.photoID = i) →
        Event.deleteImage ov.photoID ∉
          (ProductService.Update env db id product newPhoto).trace) := by
  constructor
  · intro hok hvars
    obtain ⟨p1, t1, heq⟩ :=
      productUpdate_ok_shape env db id product newPhoto existing hok hfind hvars
    exact ⟨t1, by rw [heq]⟩
  · intro hnd ov hov hmain hup habs
    rcases productUpdate_deleteImage_sources env db id product newPhoto existing
      ov.photoID hfind hnd habs with h | ⟨u, hu⟩
    · exact hmain h
    · exact hup u ov.photoID hu rfl

theorem update_orphan_deletions_timing_witness :
    ∃ t1, (ProductService.Update envAllOk [existingGold] 1 candidateGold none).trace =
      t1 ++ [Event.deleteVariants 1] ++
        (updateOrphanIDs existingGold.variants candidateGold.variants).map Event.deleteImage ++
        [Event.insertVariants 1, Event.txCommit] :=
  (update_orphan_deletions_timing envAllOk [existingGold] 1 candidateGold none existingGold
    (by decide)).1 (by decide) (by decide)

/-- C2 counterexample: an `Update` that fails at the variant insert — before
any commit — has already deleted the old variant photo `gold-pid` from the
media store, contradicting the claim that orphan deletions happen only after
a successful commit and that an error before commit implies no deletion. -/
theorem orphan_deleted_before_commit_on_failed_update :
    isErr (ProductService.Update { envAllOk with createVariantsOk := false } [existingGold] 1
      { sampleProduct with variants := [⟨0, 0, "Red", "", "", 0, false⟩] } none).res = true ∧
    Event.deleteImage "gold-pid" ∈
      (ProductService.Update { envAllOk with createVariantsOk := false } [existingGold] 1
        { sampleProduct with variants := [⟨0, 0, "Red", "", "", 0, false⟩] } none).trace ∧
    Event.txCommit ∉
      (ProductService.Update { envAllOk with createVariantsOk := false } [existingGold] 1
        { sampleProduct with variants := [⟨0, 0, "Red", "", "", 0, false⟩] } none).trace := by
  decide
